import Mathlib

/-!
Verification of the walk TableView widget (tableview.go) against its
natural-language specification.

The definitions below are shallow embeddings of the Go functions in
src/tableview.go.  Machine integers are modelled as Int (no overflow is
possible at the sizes involved), native Win32 calls are modelled by
explicit success parameters and by explicit per-pane selection state,
and the event publishers are modelled by counters recording how many
immediate publications and how many timer schedulings happened.
-/

set_option autoImplicit false

namespace Walk

/-- A TableView column, carrying the fields of TableViewColumn that
tableview.go reads: stable name, pane membership (frozen), visibility,
numeric precision and the format string. -/
structure TableViewColumn where
  name : String
  frozen : Bool
  visible : Bool
  precision : Int
  format : String
  deriving Repr, DecidableEq

/-- Loop body of TableView.fromLVColIdx: scans the logical column list,
counting visible columns of the requested pane, and returns the logical
position of the one whose pane-relative rank equals index, or -1. -/
def fromLVColIdxAux (frozen : Bool) (index : Int) :
    List TableViewColumn → Int → Int → Int
  | [], _, _ => -1
  | tvc :: rest, i, idx =>
    if frozen = tvc.frozen ∧ tvc.visible then
      if idx = index then i
      else fromLVColIdxAux frozen index rest (i + 1) (idx + 1)
    else fromLVColIdxAux frozen index rest (i + 1) idx

/-- TableView.fromLVColIdx: maps a pane-relative visual column index back
to a logical column index, or -1 when there is no such visible column. -/
def fromLVColIdx (cols : List TableViewColumn) (frozen : Bool) (index : Int) : Int :=
  fromLVColIdxAux frozen index cols 0 0

/-- Loop body of TableView.toLVColIdx: scans the logical column list and
returns, for the logical position index, its rank among all visible
columns (the loop does not restrict to one pane), or -1. -/
def toLVColIdxAux (index : Int) : List TableViewColumn → Int → Int → Int
  | [], _, _ => -1
  | tvc :: rest, i, idx =>
    if tvc.visible then
      if i = index then idx
      else toLVColIdxAux index rest (i + 1) (idx + 1)
    else toLVColIdxAux index rest (i + 1) idx

/-- TableView.toLVColIdx: maps a logical column index to a visual column
index, counting every visible column that precedes it in logical order. -/
def toLVColIdx (cols : List TableViewColumn) (index : Int) : Int :=
  toLVColIdxAux index cols 0 0

/-- TableView.visibleColumns. -/
def visibleColumns (cols : List TableViewColumn) : List TableViewColumn :=
  cols.filter (fun tvc => tvc.visible)

/-- TableView.visibleFrozenColumnCount. -/
def visibleFrozenColumnCount (cols : List TableViewColumn) : Nat :=
  (cols.filter (fun tvc => tvc.frozen ∧ tvc.visible)).length

/-- Number of visible columns in a list (TableView.visibleColumnCount). -/
def countVisible (cols : List TableViewColumn) : Nat :=
  List.countP (fun tvc => tvc.visible) cols

/-- Number of visible columns of the pane given by f. -/
def countPane (f : Bool) (cols : List TableViewColumn) : Nat :=
  List.countP (fun tvc => tvc.visible && tvc.frozen == f) cols

theorem toLVColIdxAux_char (cols : List TableViewColumn) :
    ∀ (n : Nat) (a b : Int) (h : n < cols.length),
      (cols.get ⟨n, h⟩).visible = true →
      toLVColIdxAux (a + n) cols a b = b + countVisible (cols.take n) := by
  induction cols with
  | nil => intro n a b h; exact absurd h (Nat.not_lt_zero n)
  | cons c rest ih =>
    intro n a b h hv
    cases n with
    | zero =>
      simp only [List.get] at hv
      simp [toLVColIdxAux, hv, countVisible]
    | succ m =>
      simp only [List.get] at hv
      have hm : m < rest.length := Nat.lt_of_succ_lt_succ h
      by_cases hc : c.visible = true
      · have hne : ¬ (a = a + ((m : Int) + 1)) := by omega
        have harg : a + ((m : Nat) + 1 : Nat) = (a + 1) + (m : Nat) := by
          push_cast; ring
        simp only [toLVColIdxAux, hc, if_true, harg, hne, if_false]
        rw [ih m (a + 1) (b + 1) hm hv]
        simp [countVisible, List.countP_cons, hc]
        omega
      · have harg : a + ((m : Nat) + 1 : Nat) = (a + 1) + (m : Nat) := by
          push_cast; ring
        simp only [toLVColIdxAux, hc, if_false, harg]
        rw [ih m (a + 1) b hm hv]
        simp [countVisible, List.countP_cons, hc]

theorem fromLVColIdxAux_char (f : Bool) (cols : List TableViewColumn) :
    ∀ (n : Nat) (a b : Int) (h : n < cols.length),
      (cols.get ⟨n, h⟩).visible = true →
      (cols.get ⟨n, h⟩).frozen = f →
      fromLVColIdxAux f (b + countPane f (cols.take n)) cols a b = a + n := by
  induction cols with
  | nil => intro n a b h; exact absurd h (Nat.not_lt_zero n)
  | cons c rest ih =>
    intro n a b h hv hf
    cases n with
    | zero =>
      simp only [List.get] at hv hf
      simp [fromLVColIdxAux, hv, hf, countPane]
    | succ m =>
      simp only [List.get] at hv hf
      have hm : m < rest.length := Nat.lt_of_succ_lt_succ h
      by_cases hc : f = c.frozen ∧ c.visible = true
      · have hbeq : (c.frozen == f) = true := beq_iff_eq.mpr hc.1.symm
        have hcnt : countPane f ((c :: rest).take (m + 1))
            = countPane f (rest.take m) + 1 := by
          simp [countPane, List.countP_cons, hbeq, hc.2]
        simp only [fromLVColIdxAux]
        rw [if_pos hc, hcnt]
        rw [if_neg (by push_cast; omega)]
        have harg : b + ((countPane f (rest.take m) + 1 : Nat) : Int)
            = (b + 1) + ((countPane f (rest.take m) : Nat) : Int) := by
          push_cast; ring
        rw [harg, ih m (a + 1) (b + 1) hm hv hf]
        push_cast; ring
      · have hcnt : countPane f ((c :: rest).take (m + 1))
            = countPane f (rest.take m) := by
          rcases Decidable.not_and_iff_or_not.mp hc with hx | hx
          · have hbeq : (c.visible && c.frozen == f) = false := by
              cases hcf : c.frozen <;> cases hff : f <;> simp_all
            simp [countPane, List.countP_cons, hbeq]
          · have hbeq : (c.visible && c.frozen == f) = false := by
              cases hcv : c.visible <;> simp_all
            simp [countPane, List.countP_cons, hbeq]
        simp only [fromLVColIdxAux]
        rw [if_neg hc, hcnt, ih m (a + 1) b hm hv hf]
        push_cast; ring

theorem countPane_eq_countVisible (f : Bool) (l : List TableViewColumn)
    (h : ∀ c ∈ l, c.visible = true → c.frozen = f) :
    countPane f l = countVisible l := by
  induction l with
  | nil => rfl
  | cons c rest ih =>
    have hrest : ∀ x ∈ rest, x.visible = true → x.frozen = f :=
      fun x hx => h x (List.mem_cons_of_mem c hx)
    by_cases hc : c.visible = true
    · have hf : (c.frozen == f) = true :=
        beq_iff_eq.mpr (h c (List.mem_cons_self c rest) hc)
      simp only [countPane, countVisible, List.countP_cons, hc, hf]
      simpa [countPane, countVisible] using ih hrest
    · have hc0 : c.visible = false := by cases hv : c.visible <;> simp_all
      simp only [countPane, countVisible, List.countP_cons, hc0]
      simpa [countPane, countVisible] using ih hrest

/-- A visible normal-pane column used in concrete examples. -/
def colNormalA : TableViewColumn :=
  { name := "a", frozen := false, visible := true, precision := 0, format := "" }

/-- A visible frozen-pane column used in concrete examples. -/
def colFrozenB : TableViewColumn :=
  { name := "b", frozen := true, visible := true, precision := 0, format := "" }

/-- A second visible normal-pane column used in concrete examples. -/
def colNormalC : TableViewColumn :=
  { name := "c", frozen := false, visible := true, precision := 0, format := "" }

/-- A configuration mixing a normal column before a frozen column. -/
def mixedPaneCols : List TableViewColumn := [colNormalA, colFrozenB]

/-- A configuration whose visible columns all live in the normal pane. -/
def samePaneCols : List TableViewColumn := [colNormalA, colNormalC]

/-- Claim C1, counterexample: with a visible normal column at logical
index 0 and a visible frozen column at logical index 1, toLVColIdx 1 is
the rank among all visible columns (1), not the pane-relative rank (0),
and the composition fromLVColIdx(frozen(1), toLVColIdx(1)) returns -1
instead of 1. -/
theorem c1_roundtrip_counterexample :
    (mixedPaneCols.get ⟨1, by decide⟩).visible = true ∧
    (mixedPaneCols.get ⟨1, by decide⟩).frozen = true ∧
    toLVColIdx mixedPaneCols 1 = 1 ∧
    fromLVColIdx mixedPaneCols true (toLVColIdx mixedPaneCols 1) = -1 := by
  decide

/-- Claim C1 (amended): toLVColIdx returns the rank of a visible column
among all visible columns preceding it in logical order, regardless of
pane, so the round trip fromLVColIdx(frozen(i), toLVColIdx(i)) = i holds
exactly when every visible column preceding i in logical order lies in
the same pane as i. -/
theorem c1_roundtrip_amended (cols : List TableViewColumn) (i : Nat)
    (h : i < cols.length)
    (hv : (cols.get ⟨i, h⟩).visible = true)
    (hpane : ∀ c ∈ cols.take i, c.visible = true → c.frozen = (cols.get ⟨i, h⟩).frozen) :
    fromLVColIdx cols (cols.get ⟨i, h⟩).frozen (toLVColIdx cols i) = i := by
  have ht : toLVColIdx cols i = ((countVisible (cols.take i) : Nat) : Int) := by
    have hx := toLVColIdxAux_char cols i 0 0 h hv
    simpa [toLVColIdx] using hx
  have hcp : countPane (cols.get ⟨i, h⟩).frozen (cols.take i) = countVisible (cols.take i) :=
    countPane_eq_countVisible _ _ hpane
  have hf := fromLVColIdxAux_char (cols.get ⟨i, h⟩).frozen cols i 0 0 h hv rfl
  rw [ht]
  simp only [fromLVColIdx]
  rw [← hcp]
  simpa using hf

/-- Witness for the amended claim C1 at a concrete configuration where
both visible columns are in the normal pane. -/
theorem c1_roundtrip_amended_witness :
    fromLVColIdx samePaneCols (samePaneCols.get ⟨1, by decide⟩).frozen
      (toLVColIdx samePaneCols 1) = 1 :=
  c1_roundtrip_amended samePaneCols 1 (by decide) (by decide) (by decide)

/-- The selection and current-index state of a TableView.  Native Win32
list-view selection state is modelled per pane as the list of item
indexes whose LVIS_SELECTED or LVIS_FOCUSED bits are set, in native
enumeration order.  Event publication is modelled by counters:
cidPublishCount counts immediate current-index-changed publications,
selPublishCount counts immediate selected-indexes-changed publications
and selTimerStarts counts schedulings of the delayed
selected-indexes-changed timer. -/
@[ext]
structure TVSel where
  inSetCurrentIndex : Bool
  inSetSelectedIndexes : Bool
  multiSelection : Bool
  itemStateChangedEventDelay : Int
  currentIndex : Int
  selectedIndexes : List Int
  nativeSelFrozen : List Int
  nativeSelNormal : List Int
  cidPublishCount : Nat
  selPublishCount : Nat
  selTimerStarts : Nat
  deriving Repr, DecidableEq

/-- Effect of LVM_SETITEMSTATE with the selected and focused bits on a
single item: the item joins the native selection set if absent. -/
def nativeSelect (l : List Int) (i : Int) : List Int :=
  if l.contains i then l else l ++ [i]

/-- Element-wise difference loop of TableView.updateSelectedIndexes:
walks both lists in step and reports true at the first position whose
entries differ (only called when the lengths agree). -/
def selElemDiffer : List Int → List Int → Bool
  | x :: xs, y :: ys => x != y || selElemDiffer xs ys
  | _, _ => false

/-- Comparison performed by TableView.updateSelectedIndexes: the fresh
native selection differs from the cached one when the lengths differ or
some position holds different indexes. -/
def selectionChanged (indexes sel : List Int) : Bool :=
  if indexes.length != sel.length then true
  else selElemDiffer indexes sel

/-- TableView.publishSelectedIndexesChanged: with a positive delay it
starts the one-shot selected-indexes-changed timer, otherwise it
publishes immediately. -/
def publishSelChanged (s : TVSel) : TVSel :=
  if s.itemStateChangedEventDelay > 0 then
    { s with selTimerStarts := s.selTimerStarts + 1 }
  else
    { s with selPublishCount := s.selPublishCount + 1 }

/-- TableView.updateSelectedIndexes: re-reads the selected set from the
normal pane in native enumeration order, compares it to the cached
selectedIndexes by length and element-wise equality, and caches and
publishes only when they differ. -/
def updateSelectedIndexesModel (s : TVSel) : TVSel :=
  let indexes := s.nativeSelNormal
  if selectionChanged indexes s.selectedIndexes then
    publishSelChanged { s with selectedIndexes := indexes }
  else s

/-- TableView.SetCurrentIndex.  The nativeOk parameter models whether
the native LVM_SETITEMSTATE and LVM_ENSUREVISIBLE calls succeed; on
failure the method returns an error (Bool false) having changed nothing
observable in this model.  LVM_SETITEMSTATE with item index -1 targets
every item, so a call with index -1 clears the native selection of both
panes; scroll-into-view requests do not affect this state. -/
def SetCurrentIndexModel (nativeOk : Bool) (s : TVSel) (index : Int) : TVSel × Bool :=
  if s.inSetCurrentIndex then (s, true)
  else if nativeOk = false then (s, false)
  else
    let s1 := if s.multiSelection then
        { s with nativeSelFrozen := [], nativeSelNormal := [] }
      else s
    let s2 := if index > -1 then
        { s1 with nativeSelFrozen := nativeSelect s1.nativeSelFrozen index,
                  nativeSelNormal := nativeSelect s1.nativeSelNormal index }
      else
        { s1 with nativeSelFrozen := [], nativeSelNormal := [] }
    let s3 := { s2 with currentIndex := index }
    let s4 := if index = -1 ∨ s3.itemStateChangedEventDelay = 0 then
        { s3 with cidPublishCount := s3.cidPublishCount + 1 }
      else s3
    let s5 := if s4.multiSelection then updateSelectedIndexesModel s4 else s4
    (s5, true)

/-- The rowsInserted model handler attached by TableView.attachModel:
reads the current index, updates the native item count (not part of
this state) and, when the insertion point is at or before the current
index, shifts the current index forward by the span length through
SetCurrentIndex. -/
def rowsInsertedHandler (s : TVSel) (fromRow toRow : Int) : TVSel :=
  let i := s.currentIndex
  if fromRow ≤ i then (SetCurrentIndexModel true s (i + (1 + toRow - fromRow))).1
  else s

/-- The rowsRemoved model handler attached by TableView.attachModel:
reads the current index, updates the native item count (not part of
this state), computes the re-derived index and pushes it through
SetCurrentIndex only when it changed. -/
def rowsRemovedHandler (s : TVSel) (fromRow toRow : Int) : TVSel :=
  let i := s.currentIndex
  let index :=
    if fromRow ≤ i ∧ i ≤ toRow then -1
    else if fromRow < i then i - (1 + toRow - fromRow)
    else i
  if index ≠ i then (SetCurrentIndexModel true s index).1 else s

/-- Native bit-setting loop of TableView.SetSelectedIndexes: applies
LVM_SETITEMSTATE for each requested index on both panes, stopping with
an error as soon as a native call fails (setOk i models the success of
the calls for item i). -/
def setSelNativeLoop (setOk : Int → Bool) : TVSel → List Int → TVSel × Bool
  | s, [] => (s, true)
  | s, i :: rest =>
    if setOk i then
      setSelNativeLoop setOk
        { s with nativeSelFrozen := nativeSelect s.nativeSelFrozen i,
                 nativeSelNormal := nativeSelect s.nativeSelNormal i } rest
    else (s, false)

/-- Main body of TableView.SetSelectedIndexes (everything before the
deferred epilogue): set the reentrancy flag, clear the native selection
of both panes (clearOk models the success of the two clearing calls),
re-apply the bits for each given index and, on full success, store a
copy of the input list as the new selectedIndexes. -/
def setSelectedIndexesBody (clearOk : Bool) (setOk : Int → Bool)
    (s : TVSel) (indexes : List Int) : TVSel × Bool :=
  if clearOk = false then ({ s with inSetSelectedIndexes := true }, false)
  else
    let sc := { s with
      inSetSelectedIndexes := true
      nativeSelFrozen := []
      nativeSelNormal := [] }
    let r := setSelNativeLoop setOk sc indexes
    if r.2 then ({ r.1 with selectedIndexes := indexes }, true)
    else (r.1, false)

/-- TableView.SetSelectedIndexes: runs the body and then, on every exit
path (the Go code does this in a defer), resets the reentrancy flag and
calls publishSelectedIndexesChanged. -/
def SetSelectedIndexesModel (clearOk : Bool) (setOk : Int → Bool)
    (s : TVSel) (indexes : List Int) : TVSel × Bool :=
  let body := setSelectedIndexesBody clearOk setOk s indexes
  (publishSelChanged { body.1 with inSetSelectedIndexes := false }, body.2)

theorem publishSelChanged_currentIndex (s : TVSel) :
    (publishSelChanged s).currentIndex = s.currentIndex := by
  unfold publishSelChanged; split <;> rfl

theorem updateSelectedIndexesModel_currentIndex (s : TVSel) :
    (updateSelectedIndexesModel s).currentIndex = s.currentIndex := by
  unfold updateSelectedIndexesModel
  by_cases hc : selectionChanged s.nativeSelNormal s.selectedIndexes = true
  · simp [hc, publishSelChanged_currentIndex]
  · simp [hc]

theorem setCurrentIndexModel_currentIndex (s : TVSel) (index : Int)
    (h : s.inSetCurrentIndex = false) :
    ((SetCurrentIndexModel true s index).1).currentIndex = index := by
  by_cases hm : s.multiSelection = true <;>
  by_cases hi : index > -1 <;>
  by_cases hd : (index = -1 ∨ s.itemStateChangedEventDelay = 0) <;>
  simp [SetCurrentIndexModel, h, hm, hi, hd, updateSelectedIndexesModel_currentIndex]

/-- Claim C2: the rowsRemoved handler clears the current index exactly
when it lies inside the removed span, shifts it back by the span length
(1 + to - from) when the removal happened strictly before it, and
leaves it unchanged otherwise. -/
theorem rowsRemoved_currentIndex (s : TVSel) (fromRow toRow : Int)
    (h : s.inSetCurrentIndex = false) :
    ((fromRow ≤ s.currentIndex ∧ s.currentIndex ≤ toRow) →
        (rowsRemovedHandler s fromRow toRow).currentIndex = -1) ∧
    ((fromRow < s.currentIndex ∧ toRow < s.currentIndex) →
        (rowsRemovedHandler s fromRow toRow).currentIndex
          = s.currentIndex - (1 + toRow - fromRow)) ∧
    (¬ (fromRow ≤ s.currentIndex ∧ s.currentIndex ≤ toRow) →
      ¬ (fromRow < s.currentIndex ∧ toRow < s.currentIndex) →
        (rowsRemovedHandler s fromRow toRow).currentIndex = s.currentIndex) := by
  refine ⟨?_, ?_, ?_⟩
  · intro hin
    simp only [rowsRemovedHandler]
    rw [if_pos hin]
    by_cases he : (-1 : Int) ≠ s.currentIndex
    · rw [if_pos he]
      exact setCurrentIndexModel_currentIndex s (-1) h
    · rw [if_neg he]
      omega
  · intro hin
    have hnot : ¬ (fromRow ≤ s.currentIndex ∧ s.currentIndex ≤ toRow) := by omega
    simp only [rowsRemovedHandler]
    rw [if_neg hnot, if_pos hin.1]
    by_cases he : s.currentIndex - (1 + toRow - fromRow) ≠ s.currentIndex
    · rw [if_pos he]
      exact setCurrentIndexModel_currentIndex s _ h
    · rw [if_neg he]
      omega
  · intro h1 h2
    have hlt : ¬ fromRow < s.currentIndex := by omega
    simp only [rowsRemovedHandler]
    rw [if_neg h1, if_neg hlt]
    rw [if_neg (fun hc => hc rfl)]

/-- Claim C3: the rowsInserted handler shifts the current index forward
by the inserted span length (1 + to - from) when the insertion point is
at or before it, and leaves it unchanged otherwise. -/
theorem rowsInserted_currentIndex (s : TVSel) (fromRow toRow : Int)
    (h : s.inSetCurrentIndex = false) :
    (fromRow ≤ s.currentIndex →
        (rowsInsertedHandler s fromRow toRow).currentIndex
          = s.currentIndex + (1 + toRow - fromRow)) ∧
    (¬ fromRow ≤ s.currentIndex →
        (rowsInsertedHandler s fromRow toRow).currentIndex = s.currentIndex) := by
  constructor
  · intro hin
    simp only [rowsInsertedHandler]
    rw [if_pos hin]
    exact setCurrentIndexModel_currentIndex s _ h
  · intro hin
    simp only [rowsInsertedHandler]
    rw [if_neg hin]

/-- A quiescent selection state with the given current index, used as a
concrete starting point in witnesses. -/
def sampleSelState (i : Int) : TVSel :=
  { inSetCurrentIndex := false, inSetSelectedIndexes := false,
    multiSelection := false, itemStateChangedEventDelay := 0,
    currentIndex := i, selectedIndexes := [],
    nativeSelFrozen := [], nativeSelNormal := [],
    cidPublishCount := 0, selPublishCount := 0, selTimerStarts := 0 }

/-- Witness for claim C2: removing rows 1..3 with current index 2 clears
it to -1, and removing rows 0..1 with current index 5 moves it to 3. -/
theorem rowsRemoved_currentIndex_witness :
    (rowsRemovedHandler (sampleSelState 2) 1 3).currentIndex = -1 ∧
    (rowsRemovedHandler (sampleSelState 5) 0 1).currentIndex = 3 := by
  constructor
  · exact (rowsRemoved_currentIndex (sampleSelState 2) 1 3 rfl).1 (by decide)
  · have hx := (rowsRemoved_currentIndex (sampleSelState 5) 0 1 rfl).2.1 (by decide)
    simpa using hx

/-- Witness for claim C3: inserting rows 3..5 with current index 2
leaves it at 2, and inserting rows 0..1 with current index 2 moves it
to 4. -/
theorem rowsInserted_currentIndex_witness :
    (rowsInsertedHandler (sampleSelState 2) 3 5).currentIndex = 2 ∧
    (rowsInsertedHandler (sampleSelState 2) 0 1).currentIndex = 4 := by
  constructor
  · exact (rowsInserted_currentIndex (sampleSelState 2) 3 5 rfl).2 (by decide)
  · have hx := (rowsInserted_currentIndex (sampleSelState 2) 0 1 rfl).1 (by decide)
    simpa using hx

theorem selElemDiffer_eq_false (a : List Int) :
    ∀ b : List Int, a.length = b.length → (selElemDiffer a b = false ↔ a = b) := by
  induction a with
  | nil =>
    intro b hl
    cases b with
    | nil => simp [selElemDiffer]
    | cons y ys => simp at hl
  | cons x xs ih =>
    intro b hl
    cases b with
    | nil => simp at hl
    | cons y ys =>
      have hl2 : xs.length = ys.length := by simpa using hl
      simp [selElemDiffer, Bool.or_eq_false_iff, bne_eq_false_iff_eq,
        ih ys hl2, List.cons.injEq]

theorem selectionChanged_eq_false_iff (a b : List Int) :
    selectionChanged a b = false ↔ a = b := by
  by_cases hl : a.length = b.length
  · simp only [selectionChanged, hl, bne_self_eq_false, Bool.not_eq_true]
    have : (b.length != b.length) = false := by simp
    rw [if_neg (by simp [hl])]
    exact selElemDiffer_eq_false a b hl
  · have hne : a ≠ b := fun he => hl (he ▸ rfl)
    simp [selectionChanged, hl, hne]

theorem selectionChanged_eq_true_iff (a b : List Int) :
    selectionChanged a b = true ↔ a ≠ b := by
  rw [← Bool.not_eq_false, not_iff_not]
  exact selectionChanged_eq_false_iff a b

theorem publishSelChanged_inSetCurrentIndex (s : TVSel) :
    (publishSelChanged s).inSetCurrentIndex = s.inSetCurrentIndex := by
  unfold publishSelChanged; split <;> rfl

theorem publishSelChanged_inSetSelectedIndexes (s : TVSel) :
    (publishSelChanged s).inSetSelectedIndexes = s.inSetSelectedIndexes := by
  unfold publishSelChanged; split <;> rfl

theorem publishSelChanged_multiSelection (s : TVSel) :
    (publishSelChanged s).multiSelection = s.multiSelection := by
  unfold publishSelChanged; split <;> rfl

theorem publishSelChanged_delay (s : TVSel) :
    (publishSelChanged s).itemStateChangedEventDelay = s.itemStateChangedEventDelay := by
  unfold publishSelChanged; split <;> rfl

theorem publishSelChanged_selectedIndexes (s : TVSel) :
    (publishSelChanged s).selectedIndexes = s.selectedIndexes := by
  unfold publishSelChanged; split <;> rfl

theorem publishSelChanged_nativeSelFrozen (s : TVSel) :
    (publishSelChanged s).nativeSelFrozen = s.nativeSelFrozen := by
  unfold publishSelChanged; split <;> rfl

theorem publishSelChanged_nativeSelNormal (s : TVSel) :
    (publishSelChanged s).nativeSelNormal = s.nativeSelNormal := by
  unfold publishSelChanged; split <;> rfl

theorem publishSelChanged_cidPublishCount (s : TVSel) :
    (publishSelChanged s).cidPublishCount = s.cidPublishCount := by
  unfold publishSelChanged; split <;> rfl

theorem publishSelChanged_notifications (s : TVSel) :
    (publishSelChanged s).selPublishCount + (publishSelChanged s).selTimerStarts
      = s.selPublishCount + s.selTimerStarts + 1 := by
  unfold publishSelChanged; split <;> simp <;> omega

theorem updateSelectedIndexesModel_multiSelection (s : TVSel) :
    (updateSelectedIndexesModel s).multiSelection = s.multiSelection := by
  unfold updateSelectedIndexesModel
  by_cases hc : selectionChanged s.nativeSelNormal s.selectedIndexes = true
  · simp [hc, publishSelChanged_multiSelection]
  · simp [hc]

theorem setCurrentIndexModel_multiSelection (s : TVSel) (index : Int)
    (h : s.inSetCurrentIndex = false) :
    ((SetCurrentIndexModel true s index).1).multiSelection = s.multiSelection := by
  by_cases hm : s.multiSelection = true <;>
  by_cases hi : index > -1 <;>
  by_cases hd : (index = -1 ∨ s.itemStateChangedEventDelay = 0) <;>
  simp [SetCurrentIndexModel, h, hm, hi, hd, updateSelectedIndexesModel_multiSelection]

/-- Helper characterizing the second SetCurrentIndex(-1) call: from a
state whose native selections are already clear (and whose cached
selection is empty in multi-selection mode), the call only rewrites
currentIndex to -1 and publishes one more notification. -/
theorem setCurrentIndexNeg1_quiescent (t : TVSel)
    (hin : t.inSetCurrentIndex = false)
    (hf : t.nativeSelFrozen = []) (hn : t.nativeSelNormal = [])
    (hsel : t.multiSelection = true → t.selectedIndexes = []) :
    (SetCurrentIndexModel true t (-1)).1
      = { t with currentIndex := -1, cidPublishCount := t.cidPublishCount + 1 } := by
  have hgt : ¬ ((-1 : Int) > -1) := by omega
  have hemp : selectionChanged ([] : List Int) ([] : List Int) = false := by decide
  by_cases hm : t.multiSelection = true
  · simp [SetCurrentIndexModel, hin, hm, hgt, updateSelectedIndexesModel, hemp,
      hf, hn, hsel hm]
  · simp [SetCurrentIndexModel, hin, hm, hgt, hf, hn]

/-- Characterization of the state immediately after SetCurrentIndex(-1):
the flag is back to false, both native selections are cleared, the
current index is -1 and, in multi-selection mode, the cached selection
is empty. -/
theorem setCurrentIndexNeg1_after (s : TVSel) (h : s.inSetCurrentIndex = false) :
    ((SetCurrentIndexModel true s (-1)).1).inSetCurrentIndex = false ∧
    ((SetCurrentIndexModel true s (-1)).1).nativeSelFrozen = [] ∧
    ((SetCurrentIndexModel true s (-1)).1).nativeSelNormal = [] ∧
    ((SetCurrentIndexModel true s (-1)).1).currentIndex = -1 ∧
    (s.multiSelection = true →
      ((SetCurrentIndexModel true s (-1)).1).selectedIndexes = []) := by
  have hgt : ¬ ((-1 : Int) > -1) := by omega
  have hemp : selectionChanged ([] : List Int) ([] : List Int) = false := by decide
  by_cases hm : s.multiSelection = true
  · by_cases hsel : s.selectedIndexes = []
    · simp [SetCurrentIndexModel, h, hm, hgt, updateSelectedIndexesModel, hemp, hsel]
    · have hch : selectionChanged ([] : List Int) s.selectedIndexes = true := by
        rw [selectionChanged_eq_true_iff]
        exact fun he => hsel he.symm
      simp [SetCurrentIndexModel, h, hm, hgt, updateSelectedIndexesModel, hch,
        publishSelChanged_inSetCurrentIndex, publishSelChanged_nativeSelFrozen,
        publishSelChanged_nativeSelNormal, publishSelChanged_currentIndex,
        publishSelChanged_selectedIndexes]
  · simp [SetCurrentIndexModel, h, hm, hgt]

/-- Claim C5, counterexample: after SetCurrentIndex(-1) from a quiescent
state with current index 5, a second immediate SetCurrentIndex(-1)
leaves a different state, because exactly one more current-index-changed
notification is published (publication is unconditional for -1). -/
theorem setCurrentIndexNeg1_twice_counterexample :
    ((SetCurrentIndexModel true (SetCurrentIndexModel true (sampleSelState 5) (-1)).1 (-1)).1).cidPublishCount = 2 ∧
    ((SetCurrentIndexModel true (sampleSelState 5) (-1)).1).cidPublishCount = 1 ∧
    (SetCurrentIndexModel true (SetCurrentIndexModel true (sampleSelState 5) (-1)).1 (-1)).1
      ≠ (SetCurrentIndexModel true (sampleSelState 5) (-1)).1 := by
  decide

/-- Claim C5 (amended): SetCurrentIndex(-1) twice in succession is
idempotent on all selection and current-index state, but not on
notifications: the second call publishes exactly one additional
current-index-changed notification, because publication is
unconditional when the index is -1. -/
theorem setCurrentIndexNeg1_twice (s : TVSel) (h : s.inSetCurrentIndex = false) :
    ((SetCurrentIndexModel true (SetCurrentIndexModel true s (-1)).1 (-1)).1).cidPublishCount
        = ((SetCurrentIndexModel true s (-1)).1).cidPublishCount + 1 ∧
    { (SetCurrentIndexModel true (SetCurrentIndexModel true s (-1)).1 (-1)).1 with
        cidPublishCount := 0 }
      = { (SetCurrentIndexModel true s (-1)).1 with cidPublishCount := 0 } := by
  obtain ⟨h1, h2, h3, h4, h5⟩ := setCurrentIndexNeg1_after s h
  have hsel : ((SetCurrentIndexModel true s (-1)).1).multiSelection = true →
      ((SetCurrentIndexModel true s (-1)).1).selectedIndexes = [] := by
    intro hm
    apply h5
    rw [← setCurrentIndexModel_multiSelection s (-1) h]
    exact hm
  have hq := setCurrentIndexNeg1_quiescent ((SetCurrentIndexModel true s (-1)).1)
    h1 h2 h3 hsel
  constructor
  · rw [hq]
  · rw [hq]
    ext <;> simp [h4]

/-- Witness for the amended claim C5 at a concrete quiescent state. -/
theorem setCurrentIndexNeg1_twice_witness :
    ((SetCurrentIndexModel true (SetCurrentIndexModel true (sampleSelState 7) (-1)).1 (-1)).1).cidPublishCount
      = ((SetCurrentIndexModel true (sampleSelState 7) (-1)).1).cidPublishCount + 1 :=
  (setCurrentIndexNeg1_twice (sampleSelState 7) rfl).1

/-- Fallback scan of TableView.RestoreState when the re-resolved sort
column is not sortable: the loop ranges over the indices of the
persisted column states and assigns to sortedColumnIndex every index
for which ColumnSortable holds, without breaking, so the last sortable
index wins. -/
def restoreSortedColumnIndex (columnSortable : Int → Bool) (numColumnStates : Nat)
    (sortedColumnIndex : Int) : Int :=
  if columnSortable sortedColumnIndex then sortedColumnIndex
  else (List.range numColumnStates).foldl
    (fun acc i => if columnSortable (Int.ofNat i) then Int.ofNat i else acc)
    sortedColumnIndex

/-- A Sorter.ColumnSortable capability under which exactly columns 1 and
2 are sortable. -/
def sortableOneTwo : Int → Bool := fun i => i == 1 || i == 2

/-- Claim C4, counterexample: with columns 1 and 2 sortable and the
restored sort column 0 unsortable, the fallback selects column 2, the
last sortable one, not the first sortable column 1. -/
theorem restoreSortedColumnIndex_counterexample :
    sortableOneTwo 0 = false ∧ sortableOneTwo 1 = true ∧
    restoreSortedColumnIndex sortableOneTwo 3 0 = 2 ∧
    restoreSortedColumnIndex sortableOneTwo 3 0 ≠ 1 := by
  decide

theorem lastSortableFold (p : Int → Bool) (j : Nat) (hs : p (Int.ofNat j) = true) :
    ∀ (n : Nat) (acc : Int), j < n → (∀ k : Nat, j < k → k < n → p (Int.ofNat k) = false) →
      (List.range n).foldl (fun acc i => if p (Int.ofNat i) then Int.ofNat i else acc) acc
        = Int.ofNat j := by
  intro n
  induction n with
  | zero => intro acc hj _; omega
  | succ m ih =>
    intro acc hj hlast
    rw [List.range_succ, List.foldl_append]
    simp only [List.foldl_cons, List.foldl_nil]
    by_cases hjm : j = m
    · subst hjm
      rw [if_pos hs]
    · have hjm2 : j < m := by omega
      have hm : p ((m : Nat) : Int) = false := hlast m (by omega) (by omega)
      rw [if_neg (by simp [hm])]
      exact ih acc hjm2 (fun k h1 h2 => hlast k h1 (by omega))

/-- Claim C4 (amended): when the persisted sort column resolves to an
unsortable column, RestoreState selects the LAST index among the
persisted column states for which ColumnSortable returns true (the scan
assigns without breaking), and uses it as the sorted column before
reapplying the sort. -/
theorem restoreSortedColumnIndex_last (columnSortable : Int → Bool)
    (n : Nat) (cur : Int) (hcur : columnSortable cur = false)
    (j : Nat) (hj : j < n) (hs : columnSortable (Int.ofNat j) = true)
    (hlast : ∀ k : Nat, j < k → k < n → columnSortable (Int.ofNat k) = false) :
    restoreSortedColumnIndex columnSortable n cur = Int.ofNat j := by
  unfold restoreSortedColumnIndex
  rw [if_neg (by simp [hcur])]
  exact lastSortableFold columnSortable j hs n cur hj hlast

/-- Witness for the amended claim C4: with columns 1 and 2 sortable out
of three persisted column states and current sort column 0, the
fallback picks 2. -/
theorem restoreSortedColumnIndex_last_witness :
    restoreSortedColumnIndex sortableOneTwo 3 0 = Int.ofNat 2 :=
  restoreSortedColumnIndex_last sortableOneTwo 3 0 (by decide) 2 (by decide)
    (by decide) (fun k h1 h2 => absurd (And.intro h1 h2) (by omega))

/-- Claim C8: after a native selection-change notification the
reconciliation re-reads the full selected set from the native widget in
native enumeration order; when it equals the cached selectedIndexes
(compared by length and element-wise equality) the state is untouched
and nothing is published, otherwise the fresh set is cached and exactly
one selected-indexes-changed notification is published (or scheduled
when a delay is configured). -/
theorem updateSelectedIndexes_spec (s : TVSel) :
    (s.nativeSelNormal = s.selectedIndexes → updateSelectedIndexesModel s = s) ∧
    (s.nativeSelNormal ≠ s.selectedIndexes →
      (updateSelectedIndexesModel s).selectedIndexes = s.nativeSelNormal ∧
      (updateSelectedIndexesModel s).selPublishCount
          + (updateSelectedIndexesModel s).selTimerStarts
        = s.selPublishCount + s.selTimerStarts + 1) := by
  constructor
  · intro he
    have hc : selectionChanged s.nativeSelNormal s.selectedIndexes = false :=
      (selectionChanged_eq_false_iff _ _).mpr he
    simp [updateSelectedIndexesModel, hc]
  · intro hne
    have hc : selectionChanged s.nativeSelNormal s.selectedIndexes = true :=
      (selectionChanged_eq_true_iff _ _).mpr hne
    constructor
    · simp [updateSelectedIndexesModel, hc, publishSelChanged_selectedIndexes]
    · simp only [updateSelectedIndexesModel, hc, if_true]
      rw [publishSelChanged_notifications]

/-- A state whose native selection disagrees with the cached one. -/
def selDiffState : TVSel :=
  { sampleSelState 0 with nativeSelNormal := [5] }

/-- Witness for claim C8 at a concrete state where the native selection
is item 5 while the cache is empty. -/
theorem updateSelectedIndexes_spec_witness :
    (updateSelectedIndexesModel selDiffState).selectedIndexes = [5] :=
  ((updateSelectedIndexes_spec selDiffState).2 (by decide)).1

theorem setSelNativeLoop_preserves (setOk : Int → Bool) :
    ∀ (l : List Int) (s : TVSel),
      ((setSelNativeLoop setOk s l).1).selectedIndexes = s.selectedIndexes ∧
      ((setSelNativeLoop setOk s l).1).selPublishCount = s.selPublishCount ∧
      ((setSelNativeLoop setOk s l).1).selTimerStarts = s.selTimerStarts ∧
      ((setSelNativeLoop setOk s l).1).itemStateChangedEventDelay
        = s.itemStateChangedEventDelay := by
  intro l
  induction l with
  | nil => intro s; simp [setSelNativeLoop]
  | cons i rest ih =>
    intro s
    by_cases hk : setOk i = true
    · simp only [setSelNativeLoop, hk, if_true]
      exact ih _
    · simp [setSelNativeLoop, hk]

theorem setSelectedIndexesBody_char (clearOk : Bool) (setOk : Int → Bool)
    (s : TVSel) (indexes : List Int) :
    ((setSelectedIndexesBody clearOk setOk s indexes).1).selPublishCount
        = s.selPublishCount ∧
    ((setSelectedIndexesBody clearOk setOk s indexes).1).selTimerStarts
        = s.selTimerStarts ∧
    ((setSelectedIndexesBody clearOk setOk s indexes).1).itemStateChangedEventDelay
        = s.itemStateChangedEventDelay ∧
    ((setSelectedIndexesBody clearOk setOk s indexes).2 = false →
      ((setSelectedIndexesBody clearOk setOk s indexes).1).selectedIndexes
        = s.selectedIndexes) ∧
    ((setSelectedIndexesBody clearOk setOk s indexes).2 = true →
      ((setSelectedIndexesBody clearOk setOk s indexes).1).selectedIndexes
        = indexes) := by
  by_cases hc : clearOk = false
  · simp [setSelectedIndexesBody, hc]
  · obtain ⟨hp1, hp2, hp3, hp4⟩ := setSelNativeLoop_preserves setOk indexes
      { s with inSetSelectedIndexes := true, nativeSelFrozen := [], nativeSelNormal := [] }
    by_cases hr : (setSelNativeLoop setOk
        { s with inSetSelectedIndexes := true, nativeSelFrozen := [], nativeSelNormal := [] }
        indexes).2 = true
    · simp only [setSelectedIndexesBody, hc, if_false, hr, if_true]
      simp only [hp1, hp2, hp3, hp4] at *
      simp_all
    · simp only [setSelectedIndexesBody, hc, if_false]
      rw [if_neg hr]
      simp_all

theorem publishEpilogue_char (t : TVSel) :
    (publishSelChanged { t with inSetSelectedIndexes := false }).selPublishCount
        + (publishSelChanged { t with inSetSelectedIndexes := false }).selTimerStarts
      = t.selPublishCount + t.selTimerStarts + 1 ∧
    (t.itemStateChangedEventDelay > 0 →
      (publishSelChanged { t with inSetSelectedIndexes := false }).selTimerStarts
        = t.selTimerStarts + 1) ∧
    (¬ t.itemStateChangedEventDelay > 0 →
      (publishSelChanged { t with inSetSelectedIndexes := false }).selPublishCount
        = t.selPublishCount + 1) ∧
    (publishSelChanged { t with inSetSelectedIndexes := false }).selectedIndexes
      = t.selectedIndexes := by
  by_cases hd : t.itemStateChangedEventDelay > 0 <;>
    simp [publishSelChanged, hd] <;> omega

/-- Claim C10: every call of SetSelectedIndexes publishes (or, with a
configured positive delay, schedules) exactly one selected-indexes-
changed notification, on every exit path: when the native clearing or
bit-setting calls fail the method returns an error with the cached
selectedIndexes unchanged yet still notifies, when the input equals the
current selection it still notifies, and on success the cached
selectedIndexes becomes exactly the input list with duplicates and
input order preserved. -/
theorem setSelectedIndexes_spec (clearOk : Bool) (setOk : Int → Bool)
    (s : TVSel) (indexes : List Int) :
    ((SetSelectedIndexesModel clearOk setOk s indexes).1).selPublishCount
        + ((SetSelectedIndexesModel clearOk setOk s indexes).1).selTimerStarts
      = s.selPublishCount + s.selTimerStarts + 1 ∧
    (s.itemStateChangedEventDelay > 0 →
      ((SetSelectedIndexesModel clearOk setOk s indexes).1).selTimerStarts
        = s.selTimerStarts + 1) ∧
    (¬ s.itemStateChangedEventDelay > 0 →
      ((SetSelectedIndexesModel clearOk setOk s indexes).1).selPublishCount
        = s.selPublishCount + 1) ∧
    ((SetSelectedIndexesModel clearOk setOk s indexes).2 = false →
      ((SetSelectedIndexesModel clearOk setOk s indexes).1).selectedIndexes
        = s.selectedIndexes) ∧
    ((SetSelectedIndexesModel clearOk setOk s indexes).2 = true →
      ((SetSelectedIndexesModel clearOk setOk s indexes).1).selectedIndexes
        = indexes) := by
  obtain ⟨hb1, hb2, hb3, hb4, hb5⟩ := setSelectedIndexesBody_char clearOk setOk s indexes
  obtain ⟨he1, he2, he3, he4⟩ :=
    publishEpilogue_char (setSelectedIndexesBody clearOk setOk s indexes).1
  simp only [SetSelectedIndexesModel]
  refine ⟨?_, ?_, ?_, ?_, ?_⟩
  · rw [he1, hb1, hb2]
  · intro hd
    rw [he2 (by rw [hb3]; exact hd), hb2]
  · intro hd
    rw [he3 (by rw [hb3]; exact hd), hb1]
  · intro hf
    rw [he4]
    exact hb4 hf
  · intro ht
    rw [he4]
    exact hb5 ht

/-- Witness for claim C10: a failing clear call still notifies once and
leaves the cache unchanged, shown at a concrete state; a succeeding
call caches the input with its duplicate preserved. -/
theorem setSelectedIndexes_spec_witness :
    ((SetSelectedIndexesModel false (fun _ => true) (sampleSelState 0) [1, 1, 2]).1).selPublishCount
      = (sampleSelState 0).selPublishCount + 1 ∧
    ((SetSelectedIndexesModel true (fun _ => true) (sampleSelState 0) [1, 1, 2]).1).selectedIndexes
      = [1, 1, 2] := by
  constructor
  · exact (setSelectedIndexes_spec false (fun _ => true) (sampleSelState 0) [1, 1, 2]).2.2.1
      (by decide)
  · exact (setSelectedIndexes_spec true (fun _ => true) (sampleSelState 0) [1, 1, 2]).2.2.2.2
      (by decide)

/-- Sort order of a sort-capable model (SortOrder in the source). -/
inductive SortOrderT where
  | ascending
  | descending
  deriving Repr, DecidableEq

/-- The Sorter capability of a model: its current sort column and order
and its Sort operation, which may fail with a model error (the error is
modelled by its message). -/
structure SorterModel where
  sortedColumn : Int
  sortOrder : SortOrderT
  sort : Int → SortOrderT → Option String

/-- Errors surfaced by TableView.UpdateItem: either an error returned by
the model's Sort operation, or a native call failure. -/
inductive UpdateItemError where
  | modelError (msg : String)
  | nativeError (msg : String)
  deriving Repr, DecidableEq

/-- TableView.UpdateItem: when the model implements Sorter, re-sorts by
the sorter's current column and order, returning the sort error
unchanged on failure and otherwise the result of Invalidate
(invalidateErr models a failure of the native invalidation); without a
sorter it issues LVM_UPDATE for the item on both panes, failing with a
native error when either call reports failure. -/
def UpdateItem (sorter : Option SorterModel) (invalidateErr : Option String)
    (lvUpdateFrozenOk lvUpdateNormalOk : Bool) (index : Int) :
    Except UpdateItemError Unit :=
  match sorter with
  | some s =>
    match s.sort s.sortedColumn s.sortOrder with
    | some e => .error (.modelError e)
    | none =>
      match invalidateErr with
      | some e => .error (.nativeError e)
      | none => .ok ()
  | none =>
    if lvUpdateFrozenOk = false then .error (.nativeError "LVM_UPDATE")
    else if lvUpdateNormalOk = false then .error (.nativeError "LVM_UPDATE")
    else .ok ()

/-- Claim C9: when the model is sort-capable and its Sort operation
fails, UpdateItem returns that model error unchanged; when Sort
succeeds, or the model is not sort-capable, UpdateItem never returns a
model error (any failure is a native one). -/
theorem updateItem_error_propagation (sorter : Option SorterModel)
    (invalidateErr : Option String) (fOk nOk : Bool) (index : Int) :
    (∀ s : SorterModel, sorter = some s →
      (∀ e, s.sort s.sortedColumn s.sortOrder = some e →
        UpdateItem sorter invalidateErr fOk nOk index
          = .error (.modelError e)) ∧
      (s.sort s.sortedColumn s.sortOrder = none →
        ∀ e, UpdateItem sorter invalidateErr fOk nOk index
          ≠ .error (.modelError e))) ∧
    (sorter = none →
      ∀ e, UpdateItem sorter invalidateErr fOk nOk index
        ≠ .error (.modelError e)) := by
  constructor
  · intro s hs
    subst hs
    constructor
    · intro e he
      simp [UpdateItem, he]
    · intro hn e
      cases invalidateErr with
      | none => simp [UpdateItem, hn]
      | some x => simp [UpdateItem, hn]
  · intro hn e
    subst hn
    cases fOk <;> cases nOk <;> simp [UpdateItem]

/-- A sorter whose Sort operation always fails. -/
def failingSorter : SorterModel :=
  { sortedColumn := 0, sortOrder := .ascending,
    sort := fun _ _ => some "sort failed" }

/-- Witness for claim C9: with a sorter whose Sort fails, UpdateItem
returns exactly that model error. -/
theorem updateItem_error_propagation_witness :
    UpdateItem (some failingSorter) none true true 0
      = .error (.modelError "sort failed") :=
  (((updateItem_error_propagation (some failingSorter) none true true 0).1
    failingSorter rfl).1) "sort failed" rfl

/-- A temporal cell value; only its year participates in the rendering
dispatch (time.Time values render only when Year() > 1601). -/
structure TimeValue where
  year : Int
  deriving Repr, DecidableEq

/-- A raw model value as switched on by the LVN_GETDISPINFO text branch:
string, float32, float64, time.Time, bool, big.Rat, or any other type
(the default case), with numeric payloads modelled as rationals. -/
inductive CellValue (α : Type) where
  | str (s : String)
  | float32 (v : ℚ)
  | float64 (v : ℚ)
  | time (t : TimeValue)
  | boolean (b : Bool)
  | bigRat (v : ℚ)
  | other (a : α)

/-- The fixed check glyph rendered for boolean true (the byte sequence
0xE2 0x9C 0x94 in the source). -/
def checkmark : String := "✔"

/-- The external formatting helpers called by the text branch; they live
outside tableview.go and are abstracted as parameters. -/
structure Formatters (α : Type) where
  formatFloatGrouped : ℚ → Int → String
  formatBigRatGrouped : ℚ → Int → String
  timeFormat : TimeValue → String → String
  sprintf : String → α → String

/-- Cell text resolution of the LVN_GETDISPINFO handler: strings pass
through; float32/float64 render grouped with the column's precision,
defaulting to 2 when the precision is 0; time values render via the
column's format string only when the year exceeds 1601, else empty;
booleans render the check glyph or empty; big.Rat renders grouped like
floats; anything else goes through Sprintf with the column's format. -/
def resolveCellText {α : Type} (F : Formatters α) (col : TableViewColumn) :
    CellValue α → String
  | .str v => v
  | .float32 v =>
    let prec := if col.precision = 0 then 2 else col.precision
    F.formatFloatGrouped v prec
  | .float64 v =>
    let prec := if col.precision = 0 then 2 else col.precision
    F.formatFloatGrouped v prec
  | .time val => if val.year > 1601 then F.timeFormat val col.format else ""
  | .boolean val => if val then checkmark else ""
  | .bigRat val =>
    let prec := if col.precision = 0 then 2 else col.precision
    F.formatBigRatGrouped val prec
  | .other val => F.sprintf col.format val

/-- Claim C6: floats and rationals render grouped with the column's
precision (2 when the precision is unset), time values render via the
column's format exactly when the year exceeds the 1601 sentinel and as
the empty string otherwise, boolean true renders the check glyph and
false the empty string, and other non-string values go through the
column's generic format pattern. -/
theorem cellText_spec {α : Type} (F : Formatters α) (col : TableViewColumn) :
    (∀ v : ℚ, col.precision = 0 →
        resolveCellText F col (.float64 v) = F.formatFloatGrouped v 2 ∧
        resolveCellText F col (.float32 v) = F.formatFloatGrouped v 2 ∧
        resolveCellText F col (.bigRat v) = F.formatBigRatGrouped v 2) ∧
    (∀ v : ℚ, col.precision ≠ 0 →
        resolveCellText F col (.float64 v) = F.formatFloatGrouped v col.precision ∧
        resolveCellText F col (.float32 v) = F.formatFloatGrouped v col.precision ∧
        resolveCellText F col (.bigRat v) = F.formatBigRatGrouped v col.precision) ∧
    (∀ t : TimeValue, t.year > 1601 →
        resolveCellText F col (.time t) = F.timeFormat t col.format) ∧
    (∀ t : TimeValue, ¬ t.year > 1601 →
        resolveCellText F col (.time t) = "") ∧
    resolveCellText F col (.boolean true) = checkmark ∧
    resolveCellText F col (.boolean false) = "" ∧
    (∀ a : α, resolveCellText F col (.other a) = F.sprintf col.format a) := by
  refine ⟨?_, ?_, ?_, ?_, rfl, rfl, fun a => rfl⟩
  · intro v hp
    refine ⟨?_, ?_, ?_⟩ <;> simp [resolveCellText, hp]
  · intro v hp
    refine ⟨?_, ?_, ?_⟩ <;> simp [resolveCellText, hp]
  · intro t ht
    simp [resolveCellText, ht]
  · intro t ht
    simp [resolveCellText, ht]

/-- Trivial formatters over Unit used in the witness. -/
def unitFormatters : Formatters Unit :=
  { formatFloatGrouped := fun _ p => toString p
    formatBigRatGrouped := fun _ p => toString p
    timeFormat := fun _ f => f
    sprintf := fun f _ => f }

/-- Witness for claim C6: with an unset precision a float renders with
precision 2, a time value at the sentinel year 1601 renders empty, and
boolean true renders the check glyph. -/
theorem cellText_spec_witness :
    resolveCellText unitFormatters colNormalA (.float64 (3 : ℚ))
        = unitFormatters.formatFloatGrouped 3 2 ∧
    resolveCellText unitFormatters colNormalA
        (.time { year := 1601 }) = "" ∧
    resolveCellText unitFormatters colNormalA (.boolean true) = checkmark := by
  refine ⟨((cellText_spec unitFormatters colNormalA).1 3 rfl).1, ?_, ?_⟩
  · exact (cellText_spec unitFormatters colNormalA).2.2.2.1
      { year := 1601 } (by decide)
  · exact (cellText_spec unitFormatters colNormalA).2.2.2.2.1

/-- The name-to-column map built at the start of RestoreState (Go map
semantics: a later column with the same name overwrites an earlier
one). -/
def name2tvc : List TableViewColumn → String → Option TableViewColumn
  | [], _ => none
  | c :: rest, n =>
    match name2tvc rest n with
    | some d => some d
    | none => if c.name = n then some c else none

/-- A persisted per-column state (tableViewColumnState in the source). -/
structure TableViewColumnState where
  name : String
  title : String
  width : Int
  frozen : Bool
  deriving Repr, DecidableEq

/-- First loop of RestoreState over the persisted column states: a state
whose name resolves to a live column has its title, width, visibility
and frozen flag applied (applyState abstracts those four setters, which
live outside tableview.go and may fail); a state whose name matches no
live column is skipped entirely. -/
def restoreApplyColumnStates (applyState : TableViewColumnState → Except String Unit)
    (cols : List TableViewColumn) : List TableViewColumnState → Except String Unit
  | [] => .ok ()
  | st :: rest =>
    match name2tvc cols st.name with
    | some _ =>
      match applyState st with
      | .error e => .error e
      | .ok _ => restoreApplyColumnStates applyState cols rest
    | none => restoreApplyColumnStates applyState cols rest

/-- Display-order reconciliation of RestoreState: keep every persisted
name that resolves to a visible live column, in persisted order, then
append every visible live column whose name never occurred in the
persisted list, in live order. -/
def reconciledDisplayOrder (cols : List TableViewColumn)
    (persisted : List String) : List String :=
  (persisted.filter fun n =>
      ((name2tvc cols n).map (fun tvc => tvc.visible)).getD false)
    ++ ((visibleColumns cols).filter
        (fun tvc => !persisted.contains tvc.name)).map (fun tvc => tvc.name)

theorem name2tvc_ne_none (cols : List TableViewColumn) (c : TableViewColumn)
    (h : c ∈ cols) : name2tvc cols c.name ≠ none := by
  induction cols with
  | nil => cases h
  | cons d rest ih =>
    rcases List.mem_cons.mp h with he | hm
    · subst he
      cases hx : name2tvc rest c.name with
      | some v => simp [name2tvc, hx]
      | none => simp [name2tvc, hx]
    · have hne := ih hm
      cases hx : name2tvc rest c.name with
      | some v => simp [name2tvc, hx]
      | none => exact absurd hx hne

/-- Claim C7: a persisted column name with no matching live column is
skipped without error (the application loop succeeds whenever every
matched state applies cleanly, and an unmatched name never appears in
the reconciled display order), and the reconciled display order is the
retained persisted names (a sublist of the persisted list, in its
order) followed by exactly the visible live columns absent from the
persisted list, in live relative order. -/
theorem restoreState_reconcile (applyState : TableViewColumnState → Except String Unit)
    (cols : List TableViewColumn) (states : List TableViewColumnState)
    (persisted : List String) :
    ((∀ st ∈ states, (name2tvc cols st.name).isSome = true →
        applyState st = .ok ()) →
      restoreApplyColumnStates applyState cols states = .ok ()) ∧
    (∀ n ∈ persisted, name2tvc cols n = none →
      n ∉ reconciledDisplayOrder cols persisted) ∧
    (∃ kept : List String,
      reconciledDisplayOrder cols persisted
        = kept ++ ((visibleColumns cols).filter
            (fun tvc => !persisted.contains tvc.name)).map (fun tvc => tvc.name) ∧
      kept.Sublist persisted) := by
  refine ⟨?_, ?_, ?_⟩
  · intro hall
    induction states with
    | nil => rfl
    | cons st rest ih =>
      cases hx : name2tvc cols st.name with
      | none =>
        simp only [restoreApplyColumnStates, hx]
        exact ih (fun u hu ho => hall u (List.mem_cons_of_mem st hu) ho)
      | some c =>
        have hap : applyState st = .ok () :=
          hall st (List.mem_cons_self st rest) (by simp [hx])
        simp only [restoreApplyColumnStates, hx, hap]
        exact ih (fun u hu ho => hall u (List.mem_cons_of_mem st hu) ho)
  · intro n hn hnone hmem
    rcases List.mem_append.mp hmem with h1 | h2
    · have hp := List.of_mem_filter h1
      rw [hnone] at hp
      simp at hp
    · rcases List.mem_map.mp h2 with ⟨c, hc, hcn⟩
      have hcv : c ∈ visibleColumns cols := List.mem_of_mem_filter hc
      have hcm : c ∈ cols := List.mem_of_mem_filter hcv
      rw [← hcn] at hnone
      exact name2tvc_ne_none cols c hcm hnone
  · exact ⟨_, rfl, List.filter_sublist _⟩

/-- Witness for claim C7: with live columns a (normal) and b (frozen)
and a persisted layout naming the vanished column zz and the live
column b, applying the persisted state for zz succeeds by skipping it,
zz does not appear in the reconciled order, and the reconciled order is
b followed by the appended live column a. -/
theorem restoreState_reconcile_witness :
    restoreApplyColumnStates (fun _ => Except.ok ()) mixedPaneCols
        [{ name := "zz", title := "", width := 0, frozen := false }] = .ok () ∧
    "zz" ∉ reconciledDisplayOrder mixedPaneCols ["zz", "b"] := by
  constructor
  · exact (restoreState_reconcile (fun _ => Except.ok ()) mixedPaneCols
      [{ name := "zz", title := "", width := 0, frozen := false }] ["zz", "b"]).1
      (fun st _ _ => rfl)
  · exact (restoreState_reconcile (fun _ => Except.ok ()) mixedPaneCols
      [{ name := "zz", title := "", width := 0, frozen := false }] ["zz", "b"]).2.1
      "zz" (by decide) (by decide)

end Walk
